import Mathlib

set_option maxRecDepth 16384

/-!
Verification development for the work-assistant repository.

The TypeScript sources are shallowly embedded as Lean definitions:

* the text-parser functions (`extractDueDate`, `extractTaskTitle`,
  `cleanEmailBody`, `parseTaskInput`) from `src/tools/parsers.ts` become pure
  functions on `String` / `List Char`;
* calendar arithmetic of the JavaScript `Date` object is modelled by a day
  count since 1970-01-01 (`Date.prototype.toISOString` date formatting,
  `getDay`, day addition via `setDate`); the ECMAScript time-value range
  (±8.64e15 ms, i.e. ±100000000 days) is modelled explicitly, since
  `toISOString` throws a `RangeError` outside it;
* the zod `TaskInputSchema` becomes a boolean validator over a record whose
  fields distinguish "absent", "null" and "present";
* the backend adapters (`AsanaTool.createAsanaTask`,
  `PlannerTool.createPlannerTask`) and the orchestrator
  (`handleTextToTask` in `src/agent.ts`) become functions parameterised by
  the outcomes of their HTTP calls; a thrown JS exception is an
  `Except.error` carrying the message.
-/

namespace WorkAssistant

/-! ## Character classes and elementary string operations -/

/-- JS whitespace (the `\s` regex class and `String.prototype.trim`):
space, tab, LF, VT, FF, CR and NBSP. -/
def wsChar (c : Char) : Bool :=
  c = ' ' || c = '\t' || c = '\n' || c = '\x0b' || c = '\x0c' || c = '\r' || c = ' '

/-- JS word character (the `\w` regex class): `[A-Za-z0-9_]`. -/
def wordChar (c : Char) : Bool :=
  ('a' ≤ c && c ≤ 'z') || ('A' ≤ c && c ≤ 'Z') || ('0' ≤ c && c ≤ '9') || c = '_'

/-- ASCII decimal digit (the `\d` regex class). -/
def digitChar (c : Char) : Bool :=
  '0' ≤ c && c ≤ '9'

/-- ASCII lowering of one character, modelling `String.prototype.toLowerCase`
and the `i` regex flag on the ASCII patterns the code uses. -/
def lowerC (c : Char) : Char :=
  if 'A' ≤ c && c ≤ 'Z' then Char.ofNat (c.toNat + 32) else c

/-- ASCII uppering of one character, modelling `String.prototype.toUpperCase`
on a single character. -/
def upperC (c : Char) : Char :=
  if 'a' ≤ c && c ≤ 'z' then Char.ofNat (c.toNat - 32) else c

def lowerL (cs : List Char) : List Char := cs.map lowerC

/-- `leadsWith pat cs` holds when `pat` is a prefix of `cs`
(JS `String.prototype.startsWith`). -/
def leadsWith : List Char → List Char → Bool
  | [], _ => true
  | _ :: _, [] => false
  | p :: ps, c :: cs => p = c && leadsWith ps cs

/-- `hasSub cs pat` holds when `pat` occurs as a contiguous substring of `cs`
(JS `String.prototype.includes`). -/
def hasSub : List Char → List Char → Bool
  | [], pat => leadsWith pat []
  | c :: cs, pat => leadsWith pat (c :: cs) || hasSub cs pat

/-- Remove trailing JS whitespace. -/
def dropTrailWs (cs : List Char) : List Char :=
  cs.foldr (fun c acc => if acc = [] && wsChar c then [] else c :: acc) []

/-- `String.prototype.trim`: remove leading and trailing JS whitespace. -/
def trimChars (cs : List Char) : List Char :=
  dropTrailWs (cs.dropWhile wsChar)

/-! ## The calendar model of the JavaScript `Date`

A `Date` holding a midnight instant is modelled by its day count since
1970-01-01.  `civilY`/`civilM`/`civilD` recover year, month and day of month
(standard days-from-civil inverse, Gregorian calendar, as ECMAScript
specifies); `formatISODate` renders the date part of
`Date.prototype.toISOString` including the expanded `±YYYYYY` year form that
ECMAScript mandates for years outside 0000–9999. -/

/-- Largest representable day count: the ECMAScript time value range is
±8.64e15 ms = ±100000000 days around the epoch. -/
def MAX_DAYS : Nat := 100000000

/-- Last day whose ISO year still has four digits (9999-12-31). -/
def LAST_FOUR_DIGIT_DAY : Nat := 2932896

def cfdEra (z : Nat) : Nat := (z + 719468) / 146097
def cfdDoe (z : Nat) : Nat := (z + 719468) % 146097
def cfdYoe (z : Nat) : Nat :=
  (cfdDoe z - cfdDoe z / 1460 + cfdDoe z / 36524 - cfdDoe z / 146096) / 365
def cfdDoy (z : Nat) : Nat :=
  cfdDoe z - (365 * cfdYoe z + cfdYoe z / 4 - cfdYoe z / 100)
def cfdMp (z : Nat) : Nat := (5 * cfdDoy z + 2) / 153

/-- Day of month (1–31) of day `z` since the epoch. -/
def civilD (z : Nat) : Nat := cfdDoy z - (153 * cfdMp z + 2) / 5 + 1

/-- Month (1–12) of day `z` since the epoch. -/
def civilM (z : Nat) : Nat := if cfdMp z < 10 then cfdMp z + 3 else cfdMp z - 9

/-- Year of day `z` since the epoch. -/
def civilY (z : Nat) : Nat :=
  cfdEra z * 400 + cfdYoe z + (if cfdMp z < 10 then 0 else 1)

/-- The decimal digit character for `n % 10`. -/
def digitOf (n : Nat) : Char := Char.ofNat (48 + n % 10)

/-- Decimal digits of `n`, most significant first (fuel-driven so that the
kernel can evaluate it). -/
def natDigitsAux : Nat → Nat → List Char
  | 0, _ => []
  | fuel + 1, n => if n < 10 then [digitOf n] else natDigitsAux fuel (n / 10) ++ [digitOf n]

def natDigits (n : Nat) : List Char := natDigitsAux (n + 1) n

/-- Left-pad the decimal digits of `n` with `'0'` to width `w`. -/
def padTo (w n : Nat) : List Char :=
  List.replicate (w - (natDigits n).length) '0' ++ natDigits n

/-- Date part of `Date.prototype.toISOString` for day `z` since the epoch. -/
def formatDateChars (z : Nat) : List Char :=
  (if civilY z ≤ 9999 then padTo 4 (civilY z) else '+' :: padTo 6 (civilY z))
    ++ '-' :: padTo 2 (civilM z) ++ '-' :: padTo 2 (civilD z)

def formatISODate (z : Nat) : String := String.mk (formatDateChars z)

/-- `toISOString().split('T')[0]` including its failure mode: outside the
representable range the JS call throws `RangeError: Invalid time value`,
modelled as `none`. -/
def toISODateOpt (z : Nat) : Option String :=
  if z ≤ MAX_DAYS then some (formatISODate z) else none

/-- Wrap `toISODateOpt` as the result of an `extractDueDate` branch: a thrown
`RangeError` is `Except.error ()`. -/
def liftDate (z : Nat) : Except Unit (Option String) :=
  match toISODateOpt z with
  | some s => Except.ok (some s)
  | none => Except.error ()

/-- `Date.prototype.getDay` (0 = Sunday) of day `z`; 1970-01-01 was a
Thursday. -/
def wday (z : Nat) : Nat := (z + 4) % 7

/-- The `(dayNum - now.getDay() + 7) % 7` offset from `extractDueDate`. -/
def nextK (num w : Nat) : Nat := (num + 7 - w) % 7

/-- Does a character list shape like `YYYY-MM-DD` (four digits, dash, two
digits, dash, two digits)? -/
def isYYYYMMDDL (cs : List Char) : Bool :=
  match cs with
  | [a, b, c, d, '-', e, f, '-', g, h] =>
    digitChar a && digitChar b && digitChar c && digitChar d &&
    digitChar e && digitChar f && digitChar g && digitChar h
  | _ => false

/-- Does `s : String` shape like `YYYY-MM-DD`? -/
def isYYYYMMDD (s : String) : Bool := isYYYYMMDDL s.data

/-! ## `extractDueDate` (parsers.ts lines 232–276) -/

/-- The `dayMap` of `extractDueDate`, in `Object.entries` insertion order. -/
def dayMapL : List (List Char × Nat) :=
  [("monday".data, 1), ("tuesday".data, 2), ("wednesday".data, 3),
   ("thursday".data, 4), ("friday".data, 5), ("saturday".data, 6),
   ("sunday".data, 0)]

/-- Does the regex `next\s+<day>` match at the head of `cs` (`cs` already
lowercased)? -/
def nextDayAt (cs day : List Char) : Bool :=
  match cs with
  | 'n' :: 'e' :: 'x' :: 't' :: rest =>
    match rest with
    | [] => false
    | c :: _ => wsChar c && leadsWith day (rest.dropWhile wsChar)
  | _ => false

/-- Does the regex `next\s+<day>` match anywhere in `cs`? -/
def scanNextDay : List Char → List Char → Bool
  | [], _ => false
  | c :: cs, day => nextDayAt (c :: cs) day || scanNextDay cs day

/-- The day number of the first `dayMap` entry whose `next\s+<day>` regex
tests true on the (lowercased) text — the loop of `extractDueDate`. -/
def findNextDay (cs : List Char) : Option Nat :=
  (dayMapL.find? (fun p => scanNextDay cs p.1)).map (fun p => p.2)

/-- `parseInt` on a digit run. -/
def natFromDigits (ds : List Char) : Nat :=
  ds.foldl (fun a c => 10 * a + (c.toNat - 48)) 0

/-- Does the regex `in\s+(\d+)\s+days?` match at the head of `cs`
(lowercased)?  Returns the captured number. -/
def inDaysAt (cs : List Char) : Option Nat :=
  match cs with
  | 'i' :: 'n' :: rest =>
    match rest with
    | [] => none
    | c :: _ =>
      if wsChar c then
        let t1 := rest.dropWhile wsChar
        match t1 with
        | [] => none
        | d :: _ =>
          if digitChar d then
            let t2 := t1.dropWhile digitChar
            match t2 with
            | [] => none
            | c2 :: _ =>
              if wsChar c2 && leadsWith "day".data (t2.dropWhile wsChar) then
                some (natFromDigits (t1.takeWhile digitChar))
              else none
          else none
      else none
  | _ => none

/-- Leftmost match of `in\s+(\d+)\s+days?` in `cs`. -/
def scanInDays : List Char → Option Nat
  | [] => none
  | c :: cs =>
    match inDaysAt (c :: cs) with
    | some n => some n
    | none => scanInDays cs

/-- Does the regex `\b(\d{4}-\d{2}-\d{2})\b` match at the head of `cs` (the
leading word boundary is checked by the caller)?  Returns the matched
substring. -/
def dateLitAt (cs : List Char) : Option (List Char) :=
  match cs with
  | a :: b :: c :: d :: '-' :: e :: f :: '-' :: g :: h :: rest =>
    if digitChar a && digitChar b && digitChar c && digitChar d &&
       digitChar e && digitChar f && digitChar g && digitChar h &&
       (match rest with | [] => true | r :: _ => !wordChar r) then
      some [a, b, c, d, '-', e, f, '-', g, h]
    else none
  | _ => none

/-- Leftmost match of `\b(\d{4}-\d{2}-\d{2})\b`; `prevW` records whether the
character before the current position is a word character. -/
def scanDateLit : List Char → Bool → Option (List Char)
  | [], _ => none
  | c :: cs, prevW =>
    match (if !prevW then dateLitAt (c :: cs) else none) with
    | some m => some m
    | none => scanDateLit cs (wordChar c)

/-- `extractDueDate` (parsers.ts).  `now` is the wall-clock day count since
the epoch; `Except.error ()` models the `RangeError` thrown by
`toISOString` when the computed date leaves the representable range. -/
def extractDueDate (text : String) (now : Nat) : Except Unit (Option String) :=
  match findNextDay (lowerL text.data) with
  | some num => liftDate (now + nextK num (wday now))
  | none =>
    if hasSub (lowerL text.data) "tomorrow".data then liftDate (now + 1)
    else
      match scanInDays (lowerL text.data) with
      | some n => liftDate (now + n)
      | none =>
        match scanDateLit text.data false with
        | some m => Except.ok (some (String.mk m))
        | none => Except.ok none

/-! ## `extractTaskTitle` (parsers.ts lines 320–342) -/

/-- The ordered intent-phrase list of `extractTaskTitle`. -/
def introPhrases : List (List Char) :=
  ["follow up with".data, "remind me to".data, "schedule".data,
   "create task for".data, "add task:".data, "task:".data]

/-- The loop of `extractTaskTitle`: strip the first phrase the lowercased
title starts with (then re-trim) and stop; otherwise keep the title. -/
def stripIntro : List (List Char) → List Char → List Char
  | [], t => t
  | p :: ps, t =>
    if leadsWith p (lowerL t) then trimChars (t.drop p.length)
    else stripIntro ps t

/-- `title.charAt(0).toUpperCase() + title.slice(1)`. -/
def capFirst : List Char → List Char
  | [] => []
  | c :: cs => upperC c :: cs

/-- `extractTaskTitle` (parsers.ts). -/
def extractTaskTitle (text : String) : String :=
  String.mk (capFirst (stripIntro introPhrases (trimChars text.data)))

/-- The specification's reading of `extractTaskTitle`: trim, strip the first
matching entry of the fixed phrase list (case-insensitively), capitalize the
first character of the (trimmed) remainder; with no match, capitalize the
trimmed text. -/
def extractTaskTitleSpec (text : String) : String :=
  match introPhrases.find? (fun p => leadsWith p (lowerL (trimChars text.data))) with
  | some p => String.mk (capFirst (trimChars ((trimChars text.data).drop p.length)))
  | none => String.mk (capFirst (trimChars text.data))

/-! ## `cleanEmailBody` (parsers.ts lines 305–315) -/

/-- Does the dotall regex (two dashes, `\s*`, `\n`, `.*$`) match at the head
of `cs`, i.e. is this a `--` followed by whitespace containing a newline? -/
def sigAt (cs : List Char) : Bool :=
  match cs with
  | '-' :: '-' :: rest => (rest.takeWhile wsChar).contains '\n'
  | _ => false

/-- The first `replace` of `cleanEmailBody` (pattern: two dashes, `\s*`,
`\n`, `.*$`, dotall): cut everything from the leftmost signature marker to
the end of the string. -/
def cutSig : List Char → List Char
  | [] => []
  | c :: cs => if sigAt (c :: cs) then [] else c :: cutSig cs

/-- Split on `'\n'` (the line structure the `m`-flagged regexes see). -/
def splitNl : List Char → List (List Char)
  | [] => [[]]
  | '\n' :: rest => [] :: splitNl rest
  | c :: rest =>
    match splitNl rest with
    | [] => [[c]]
    | l :: ls => (c :: l) :: ls

/-- Rejoin lines with `'\n'`. -/
def joinNl : List (List Char) → List Char
  | [] => []
  | [l] => l
  | l :: ls => l ++ '\n' :: joinNl ls

/-- Does a line match `^On.*wrote:$` (no dotall: the dot stays on one
line)? -/
def wroteLine (l : List Char) : Bool :=
  leadsWith "On".data l && leadsWith (List.reverse "wrote:".data) l.reverse &&
    8 ≤ l.length

/-- `replace(/^On.*wrote:$/m, '')`: empty the first matching line only (no
`g` flag). -/
def cutWroteFirst : List (List Char) → List (List Char)
  | [] => []
  | l :: ls => if wroteLine l then [] :: ls else l :: cutWroteFirst ls

/-- `replace(/^>.*$/gm, '')`: empty every line that starts with `'>'`. -/
def cutQuoted (ls : List (List Char)) : List (List Char) :=
  ls.map (fun l => match l with | '>' :: _ => [] | _ => l)

/-- `replace(/\n{3,}/g, '\n\n')`: keep at most two newlines of every run;
`k` counts the newlines just emitted. -/
def collapseGo : Nat → List Char → List Char
  | _, [] => []
  | k, '\n' :: rest =>
    if 2 ≤ k then collapseGo (k + 1) rest
    else '\n' :: collapseGo (k + 1) rest
  | _, c :: rest => c :: collapseGo 0 rest

def collapseNl (cs : List Char) : List Char := collapseGo 0 cs

/-- `cleanEmailBody` (parsers.ts): signature cut, `On … wrote:` line,
quoted lines, newline collapse, trim — in that order. -/
def cleanEmailBody (body : String) : String :=
  String.mk (trimChars (collapseNl
    (joinNl (cutQuoted (cutWroteFirst (splitNl (cutSig body.data)))))))

/-! ## `TaskInputSchema` (parsers.ts lines 215–226) and `parseTaskInput`

zod semantics: `z.string().min(1)` requires a present string of length ≥ 1;
`z.string().nullable()` (and the nullable arrays) accept a value or `null`
but reject an absent / `undefined` field. -/

/-- A JS object field: absent (or `undefined`), `null`, or a value. -/
inductive Field (α : Type) where
  | missing : Field α
  | nullV : Field α
  | val : α → Field α
deriving DecidableEq

/-- The shape validated by `TaskInputSchema`. -/
structure RawTaskInput where
  title : Field String
  description : Field String
  dueDate : Field String
  assignee : Field String
  project : Field String
  sectionId : Field String
  links : Field (List String)
  attachments : Field (List String)
deriving DecidableEq

/-- `z.string().nullable()` / `z.array(z.string()).nullable()`. -/
def nullableOk {α : Type} : Field α → Bool
  | Field.missing => false
  | Field.nullV => true
  | Field.val _ => true

/-- `z.string().min(1)`: a present string of length at least one. -/
def titleOk : Field String → Bool
  | Field.val s => 1 ≤ s.length
  | _ => false

/-- Does `TaskInputSchema.parse` succeed on the record? -/
def validateTaskInput (r : RawTaskInput) : Bool :=
  titleOk r.title &&
  nullableOk r.description && nullableOk r.dueDate && nullableOk r.assignee &&
  nullableOk r.project && nullableOk r.sectionId && nullableOk r.links &&
  nullableOk r.attachments

/-- `parseTaskInput` (parsers.ts lines 347–356): the returned object carries
only `title`, `dueDate` (set to `undefined` when no date was found) and
`description`; every other field is absent.  An exception from
`extractDueDate` propagates. -/
def parseTaskInput (text : String) (now : Nat) : Except Unit RawTaskInput :=
  match extractDueDate text now with
  | Except.error e => Except.error e
  | Except.ok dd =>
    Except.ok
      { title := Field.val (extractTaskTitle text)
        description := Field.val (cleanEmailBody text)
        dueDate := match dd with | some s => Field.val s | none => Field.missing
        assignee := Field.missing
        project := Field.missing
        sectionId := Field.missing
        links := Field.missing
        attachments := Field.missing }

/-! ## Backend adapters (asana.ts, msgraph.ts)

The HTTP layer is abstracted: each `fetch` in an adapter call is represented
by an injected `FetchOutcome` (the network threw / non-2xx status / parsed
success payload).  A JS `throw` is `Except.error` carrying the message. -/

/-- Outcome of one `fetch` call. -/
inductive FetchOutcome (α : Type) where
  | netThrow : String → FetchOutcome α
  | badStatus : Nat → String → FetchOutcome α
  | success : α → FetchOutcome α

/-- JS truthiness of a nullable string (both `null`/absent and `''` are
falsy). -/
def jsTruthy : Option String → Bool
  | none => false
  | some s => s ≠ ""

structure TaskInputV where
  title : String
  description : Option String
  dueDate : Option String
  assignee : Option String
  links : Option (List String)

structure AsanaConfig where
  token : String
  project : String
  sectionId : Option String

structure AsanaTask where
  gid : String
  permalink_url : String

/-- `AsanaTool.moveTaskToSection`: a non-2xx response is only warned about,
and the surrounding `try`/`catch` swallows any exception — the call never
throws. -/
def moveTaskToSection (out : FetchOutcome Unit) : Except String Unit :=
  match out with
  | FetchOutcome.netThrow _ => Except.ok ()
  | FetchOutcome.badStatus _ _ => Except.ok ()
  | FetchOutcome.success _ => Except.ok ()

/-- `AsanaTool.createAsanaTask`: primary creation (throwing on non-2xx),
then a best-effort section move when a section is configured, then the
permalink; the outer `catch` wraps any exception. -/
def createAsanaTask (cfg : AsanaConfig) (_input : TaskInputV)
    (createOut : FetchOutcome AsanaTask) (moveOut : FetchOutcome Unit) :
    Except String String :=
  match createOut with
  | FetchOutcome.netThrow m =>
    Except.error ("Failed to create Asana task: " ++ m)
  | FetchOutcome.badStatus s b =>
    Except.error ("Failed to create Asana task: Asana API error: " ++
      toString s ++ " - " ++ b)
  | FetchOutcome.success task =>
    match (if cfg.sectionId.isSome && task.gid ≠ "" then
             moveTaskToSection moveOut
           else Except.ok ()) with
    | Except.error m => Except.error ("Failed to create Asana task: " ++ m)
    | Except.ok _ => Except.ok task.permalink_url

structure GraphConfig where
  token : String
  planId : String
  bucketId : Option String

structure PlanInfo where
  defaultBucketId : Option String

structure PlannerTask where
  id : String
  webUrl : String

/-- Does `createPlannerTask` issue the details PATCH
(`input.description || (input.links && input.links.length > 0)`)? -/
def needsDetails (input : TaskInputV) : Bool :=
  jsTruthy input.description ||
    (match input.links with | some l => 0 < l.length | none => false)

/-- `PlannerTool.updateTaskDetails`: a non-2xx response is only warned
about, and the surrounding `try`/`catch` swallows any exception — the call
never throws. -/
def updateTaskDetails (out : FetchOutcome Unit) : Except String Unit :=
  match out with
  | FetchOutcome.netThrow _ => Except.ok ()
  | FetchOutcome.badStatus _ _ => Except.ok ()
  | FetchOutcome.success _ => Except.ok ()

/-- `PlannerTool.createPlannerTask`: plan fetch, bucket resolution
(`config.bucketId || plan.defaultBucketId`, JS truthiness), primary
creation, best-effort details update, web URL; the outer `catch` wraps any
exception. -/
def createPlannerTask (cfg : GraphConfig) (input : TaskInputV)
    (planOut : FetchOutcome PlanInfo) (createOut : FetchOutcome PlannerTask)
    (detailsOut : FetchOutcome Unit) : Except String String :=
  match planOut with
  | FetchOutcome.netThrow m =>
    Except.error ("Failed to create Planner task: " ++ m)
  | FetchOutcome.badStatus s _ =>
    Except.error ("Failed to create Planner task: Failed to get plan: " ++
      toString s)
  | FetchOutcome.success plan =>
    let bucket := if jsTruthy cfg.bucketId then cfg.bucketId
                  else plan.defaultBucketId
    if jsTruthy bucket then
      match createOut with
      | FetchOutcome.netThrow m =>
        Except.error ("Failed to create Planner task: " ++ m)
      | FetchOutcome.badStatus s b =>
        Except.error
          ("Failed to create Planner task: Microsoft Graph API error: " ++
            toString s ++ " - " ++ b)
      | FetchOutcome.success task =>
        match (if needsDetails input then updateTaskDetails detailsOut
               else Except.ok ()) with
        | Except.error m =>
          Except.error ("Failed to create Planner task: " ++ m)
        | Except.ok _ => Except.ok task.webUrl
    else
      Except.error
        "Failed to create Planner task: No bucket ID specified and plan has no default bucket"

/-! ## Orchestrator (agent.ts) -/

inductive Backend where
  | asana : Backend
  | planner : Backend
deriving DecidableEq

/-- Truthiness of the four relevant environment variables. -/
structure EnvCfg where
  asanaToken : Bool
  asanaProject : Bool
  graphToken : Bool
  plannerPlan : Bool

/-- `pickBackend` (agent.ts lines 82–89). -/
def pickBackend (e : EnvCfg) : Backend :=
  if e.asanaToken && e.asanaProject then Backend.asana
  else if e.graphToken && e.plannerPlan then Backend.planner
  else Backend.asana

/-- The JSON object a tool `execute` stringifies. -/
structure ToolOutput where
  success : Bool
  backend : Backend
  taskUrl : Option String
  message : String
  error : Option String

/-- `asanaCreateTask.execute` (agent.ts lines 29–53): the adapter outcome is
caught here and turned into a success/failure JSON — it never rethrows. -/
def asanaCreateTaskExecute (title : String)
    (adapterOutcome : Except String String) : ToolOutput :=
  match adapterOutcome with
  | Except.ok url =>
    { success := true, backend := Backend.asana, taskUrl := some url
      message := "Task \"" ++ title ++ "\" created successfully in Asana"
      error := none }
  | Except.error m =>
    { success := false, backend := Backend.asana, taskUrl := none
      message := "Failed to create task \"" ++ title ++ "\" in Asana"
      error := some m }

/-- An entry of `result.newItems`; a tool-call output carries the result of
`JSON.parse` on its output string (`Except.error` = parse threw, which the
loop catches and skips). -/
inductive RunItem where
  | toolCallOutput : Except String ToolOutput → RunItem
  | other : RunItem

/-- The scan loop of `handleTextToTask`: first tool-call output whose parse
succeeded and whose `taskUrl` is truthy. -/
def scanItems : List RunItem → Option ToolOutput
  | [] => none
  | RunItem.toolCallOutput (Except.ok t) :: rest =>
    if jsTruthy t.taskUrl then some t else scanItems rest
  | _ :: rest => scanItems rest

/-- The object `handleTextToTask` returns (the `raw` field is omitted). -/
structure HandleResult where
  success : Bool
  backend : Backend
  taskUrl : Option String
  message : String
  error : Option String
deriving DecidableEq

/-- `handleTextToTask` (agent.ts lines 123–174), parameterised by the
outcome of `run(assistant, prompt)`: `Except.error` is an exception thrown
inside the `try` body, handled by the `catch`. -/
def handleTextToTask (env : EnvCfg) (platform : Option Backend)
    (runOutcome : Except String (List RunItem)) : HandleResult :=
  match runOutcome with
  | Except.error m =>
    { success := false, backend := pickBackend env, taskUrl := none
      message := "Error processing task: " ++ m, error := some m }
  | Except.ok items =>
    let backend := match platform with
      | some b => b
      | none => pickBackend env
    match scanItems items with
    | some t =>
      { success := t.success || true, backend := backend
        taskUrl := t.taskUrl
        message := if t.message = "" then "Task processing completed"
                   else t.message
        error := none }
    | none =>
      { success := false, backend := backend, taskUrl := none
        message := "Task processing completed", error := none }

/-! ## Lemmas about the elementary string operations -/

theorem leadsWith_iff : ∀ (p t : List Char), leadsWith p t = true ↔ ∃ s, t = p ++ s
  | [], t => by simp [leadsWith]
  | p :: ps, [] => by simp [leadsWith]
  | p :: ps, c :: cs => by
    simp only [leadsWith, Bool.and_eq_true, decide_eq_true_eq, List.cons_append]
    constructor
    · rintro ⟨rfl, h⟩
      obtain ⟨s, rfl⟩ := (leadsWith_iff ps cs).1 h
      exact ⟨s, rfl⟩
    · rintro ⟨s, hs⟩
      injection hs with h1 h2
      exact ⟨h1.symm, (leadsWith_iff ps cs).2 ⟨s, h2⟩⟩

theorem hasSub_iff : ∀ (t pat : List Char),
    hasSub t pat = true ↔ ∃ a b, t = a ++ (pat ++ b)
  | [], pat => by
    rw [hasSub, leadsWith_iff]
    constructor
    · rintro ⟨s, hs⟩
      exact ⟨[], s, hs⟩
    · rintro ⟨a, b, h⟩
      rcases List.append_eq_nil.mp h.symm with ⟨rfl, h2⟩
      exact ⟨b, h2.symm ▸ rfl⟩
  | c :: cs, pat => by
    rw [hasSub, Bool.or_eq_true, leadsWith_iff, hasSub_iff cs pat]
    constructor
    · rintro (⟨s, hs⟩ | ⟨a, b, rfl⟩)
      · exact ⟨[], s, hs⟩
      · exact ⟨c :: a, b, rfl⟩
    · rintro ⟨a, b, h⟩
      cases a with
      | nil => exact Or.inl ⟨b, by simpa using h⟩
      | cons a0 as =>
        injection h with h1 h2
        exact Or.inr ⟨as, b, h2⟩

theorem hasSub_of_part (a m b pat : List Char) (h : hasSub m pat = true) :
    hasSub (a ++ (m ++ b)) pat = true := by
  obtain ⟨x, y, rfl⟩ := (hasSub_iff m pat).1 h
  exact (hasSub_iff _ pat).2 ⟨a ++ x, y ++ b, by simp [List.append_assoc]⟩

theorem hasSub_false_of_part (a m b pat : List Char)
    (h : hasSub (a ++ (m ++ b)) pat = false) : hasSub m pat = false := by
  cases h2 : hasSub m pat with
  | false => rfl
  | true => rw [hasSub_of_part a m b pat h2] at h; cases h

theorem dropTrailWs_cons (c : Char) (cs : List Char) :
    dropTrailWs (c :: cs) =
      if dropTrailWs cs = [] && wsChar c then [] else c :: dropTrailWs cs := rfl

theorem dropTrailWs_pre : ∀ l : List Char, ∃ r, l = dropTrailWs l ++ r
  | [] => ⟨[], rfl⟩
  | c :: cs => by
    obtain ⟨r, hr⟩ := dropTrailWs_pre cs
    rw [dropTrailWs_cons]
    by_cases h : dropTrailWs cs = [] ∧ wsChar c = true
    · refine ⟨c :: cs, ?_⟩
      simp [h.1, h.2]
    · have hcond : (dropTrailWs cs = [] && wsChar c) = false := by
        rw [Bool.eq_false_iff]
        intro hab
        rw [Bool.and_eq_true, decide_eq_true_eq] at hab
        exact h hab
      rw [hcond]
      simp only [Bool.false_eq_true, if_false, List.cons_append]
      exact ⟨r, by rw [← hr]⟩

theorem dropTrailWs_idem : ∀ l : List Char, dropTrailWs (dropTrailWs l) = dropTrailWs l
  | [] => rfl
  | c :: cs => by
    rw [dropTrailWs_cons]
    by_cases h : dropTrailWs cs = [] ∧ wsChar c = true
    · rw [h.1, h.2]
      rfl
    · have hcond : (dropTrailWs cs = [] && wsChar c) = false := by
        rw [Bool.eq_false_iff]
        intro hab
        rw [Bool.and_eq_true, decide_eq_true_eq] at hab
        exact h hab
      rw [hcond]
      simp only [Bool.false_eq_true, if_false, dropTrailWs_cons, dropTrailWs_idem cs, hcond]

theorem dropTrailWs_head : ∀ (l : List Char) (c : Char) (t : List Char),
    dropTrailWs l = c :: t → l.head? = some c
  | [], c, t, h => by cases h
  | a :: as, c, t, h => by
    rw [dropTrailWs_cons] at h
    by_cases hc : (dropTrailWs as = [] && wsChar a) = true
    · rw [hc] at h; cases h
    · rw [Bool.not_eq_true] at hc
      rw [hc] at h
      simp only [Bool.false_eq_true, if_false] at h
      injection h with h1 h2
      simp [h1]

theorem dropWhile_head_not (p : Char → Bool) :
    ∀ (l : List Char) (c : Char), (l.dropWhile p).head? = some c → p c = false
  | [], c, h => by cases h
  | a :: as, c, h => by
    rw [List.dropWhile_cons] at h
    by_cases hp : p a = true
    · rw [if_pos hp] at h
      exact dropWhile_head_not p as c h
    · rw [Bool.not_eq_true] at hp
      rw [hp] at h
      simp only [Bool.false_eq_true, if_false, List.head?_cons, Option.some.injEq] at h
      rw [← h]
      exact hp

theorem dropWhile_dw (p : Char → Bool) (l : List Char) :
    List.dropWhile p (List.dropWhile p l) = List.dropWhile p l := by
  cases h : List.dropWhile p l with
  | nil => rfl
  | cons c cs =>
    have hc : p c = false := dropWhile_head_not p l c (by rw [h]; rfl)
    rw [List.dropWhile_cons, hc]
    simp

theorem trimChars_idem (l : List Char) : trimChars (trimChars l) = trimChars l := by
  unfold trimChars
  have h1 : List.dropWhile wsChar (dropTrailWs (List.dropWhile wsChar l)) =
      dropTrailWs (List.dropWhile wsChar l) := by
    cases h : dropTrailWs (List.dropWhile wsChar l) with
    | nil => rfl
    | cons c cs =>
      have hhead : (List.dropWhile wsChar l).head? = some c := dropTrailWs_head _ c cs h
      have hc : wsChar c = false := dropWhile_head_not wsChar l c hhead
      rw [List.dropWhile_cons, hc]
      simp
  rw [h1, dropTrailWs_idem]

theorem trimChars_part (l : List Char) : ∃ a b, l = a ++ (trimChars l ++ b) := by
  obtain ⟨r, hr⟩ := dropTrailWs_pre (List.dropWhile wsChar l)
  refine ⟨List.takeWhile wsChar l, r, ?_⟩
  unfold trimChars
  rw [← hr, List.takeWhile_append_dropWhile]

/-! ## Lemmas about the newline collapse -/

theorem collapseGo_nl (k : Nat) (rest : List Char) :
    collapseGo k ('\n' :: rest) =
      if 2 ≤ k then collapseGo (k + 1) rest
      else '\n' :: collapseGo (k + 1) rest := rfl

theorem collapseGo_other (k : Nat) (c : Char) (rest : List Char) (hc : ¬ c = '\n') :
    collapseGo k (c :: rest) = c :: collapseGo 0 rest := by
  simp [collapseGo, hc]

theorem collapseGo_head : ∀ (l : List Char) (k : Nat), 2 ≤ k →
    (collapseGo k l).head? ≠ some '\n'
  | [], _, _ => by simp [collapseGo]
  | a :: as, k, hk => by
    by_cases ha : a = '\n'
    · subst ha
      rw [collapseGo_nl, if_pos hk]
      exact collapseGo_head as (k + 1) (Nat.le_succ_of_le hk)
    · rw [collapseGo_other k a as ha]
      simp only [List.head?_cons, ne_eq, Option.some.injEq]
      exact ha

theorem leadsWith_nl_false (X : List Char) (h : X.head? ≠ some '\n')
    (p : List Char) : leadsWith ('\n' :: p) X = false := by
  cases X with
  | nil => rfl
  | cons x xs =>
    have hx : ¬ ('\n' = x) := by
      intro he
      exact h (by rw [← he]; rfl)
    rw [leadsWith]
    simp [hx]

theorem collapseGo_no3 : ∀ (l : List Char) (k : Nat),
    hasSub (collapseGo k l) ('\n' :: '\n' :: '\n' :: []) = false
  | [], _ => rfl
  | a :: as, k => by
    by_cases ha : a = '\n'
    · subst ha
      rw [collapseGo_nl]
      by_cases hk : 2 ≤ k
      · rw [if_pos hk]
        exact collapseGo_no3 as (k + 1)
      · rw [if_neg hk, hasSub, collapseGo_no3 as (k + 1), Bool.or_false, leadsWith]
        simp only [decide_True, Bool.true_and]
        cases as with
        | nil => rfl
        | cons b bs =>
          by_cases hb : b = '\n'
          · subst hb
            by_cases hk1 : 2 ≤ k + 1
            · rw [collapseGo_nl, if_pos hk1]
              exact leadsWith_nl_false _ (collapseGo_head bs (k + 2) (by omega)) _
            · rw [collapseGo_nl, if_neg hk1, leadsWith]
              simp only [decide_True, Bool.true_and]
              exact leadsWith_nl_false _ (collapseGo_head bs (k + 2) (by omega)) _
          · rw [collapseGo_other (k + 1) b bs hb]
            refine leadsWith_nl_false _ ?_ _
            simp only [List.head?_cons, ne_eq, Option.some.injEq]
            exact fun he => hb he
    · rw [collapseGo_other k a as ha, hasSub, collapseGo_no3 as 0, Bool.or_false]
      refine leadsWith_nl_false _ ?_ _
      simp only [List.head?_cons, ne_eq, Option.some.injEq]
      exact fun he => ha he

/-! ## Lemmas about the calendar model -/

set_option maxHeartbeats 2000000 in
theorem cfdDoy_le (z : Nat) : cfdDoy z ≤ 365 := by
  unfold cfdDoy cfdYoe cfdDoe
  have h : (z + 719468) % 146097 ≤ 146096 := by omega
  generalize hg : (z + 719468) % 146097 = n at h ⊢
  have hi : n / 1460 ≤ 100 := by omega
  generalize hI : n / 1460 = i at hi ⊢
  interval_cases i <;> omega

theorem cfdEra_ge (z : Nat) : 4 ≤ cfdEra z := by
  unfold cfdEra
  omega

theorem civilM_bounds (z : Nat) : 1 ≤ civilM z ∧ civilM z ≤ 12 := by
  have hdoy := cfdDoy_le z
  unfold civilM cfdMp
  split_ifs <;> omega

theorem civilD_bounds (z : Nat) : 1 ≤ civilD z ∧ civilD z ≤ 31 := by
  have hdoy := cfdDoy_le z
  unfold civilD cfdMp
  omega

theorem civilY_lb (z : Nat) : 1600 ≤ civilY z := by
  have := cfdEra_ge z
  unfold civilY
  split_ifs <;> omega

theorem natDigitsAux_fuel : ∀ (f g n : Nat), n < f → n < g →
    natDigitsAux f n = natDigitsAux g n
  | 0, _, n, hf, _ => by omega
  | _ + 1, 0, n, _, hg => by omega
  | f + 1, g + 1, n, hf, hg => by
    simp only [natDigitsAux]
    by_cases h : n < 10
    · rw [if_pos h, if_pos h]
    · rw [if_neg h, if_neg h]
      have hd : n / 10 < n := Nat.div_lt_self (by omega) (by omega)
      rw [natDigitsAux_fuel f g (n / 10) (by omega) (by omega)]

theorem natDigits_lt10 (n : Nat) (h : n < 10) : natDigits n = [digitOf n] := by
  unfold natDigits
  simp only [natDigitsAux]
  rw [if_pos h]

theorem natDigits_step (n : Nat) (h : 10 ≤ n) :
    natDigits n = natDigits (n / 10) ++ [digitOf n] := by
  unfold natDigits
  conv_lhs => rw [natDigitsAux]
  rw [if_neg (by omega)]
  have hd : n / 10 < n := Nat.div_lt_self (by omega) (by omega)
  rw [natDigitsAux_fuel n (n / 10 + 1) (n / 10) (by omega) (by omega)]

theorem natDigits_two (n : Nat) (h1 : 10 ≤ n) (h2 : n < 100) :
    natDigits n = [digitOf (n / 10), digitOf n] := by
  rw [natDigits_step n h1, natDigits_lt10 (n / 10) (by omega)]
  rfl

theorem natDigits_four (n : Nat) (h1 : 1000 ≤ n) (h2 : n < 10000) :
    natDigits n =
      [digitOf (n / 10 / 10 / 10), digitOf (n / 10 / 10), digitOf (n / 10),
        digitOf n] := by
  rw [natDigits_step n (by omega), natDigits_step (n / 10) (by omega),
    natDigits_step (n / 10 / 10) (by omega),
    natDigits_lt10 (n / 10 / 10 / 10) (by omega)]
  rfl

theorem digitOf_digit (n : Nat) : digitChar (digitOf n) = true := by
  unfold digitOf digitChar
  generalize hm : n % 10 = m
  have hlt : m < 10 := by omega
  interval_cases m <;> decide

theorem padTo_two_lt (n : Nat) (h : n < 10) : padTo 2 n = ['0', digitOf n] := by
  unfold padTo
  rw [natDigits_lt10 n h]
  rfl

theorem padTo_two_ge (n : Nat) (h1 : 10 ≤ n) (h2 : n < 100) :
    padTo 2 n = [digitOf (n / 10), digitOf n] := by
  unfold padTo
  rw [natDigits_two n h1 h2]
  rfl

theorem padTo_four (n : Nat) (h1 : 1000 ≤ n) (h2 : n < 10000) :
    padTo 4 n =
      [digitOf (n / 10 / 10 / 10), digitOf (n / 10 / 10), digitOf (n / 10),
        digitOf n] := by
  unfold padTo
  rw [natDigits_four n h1 h2]
  rfl

/-- Within four-digit years, the rendered date has the `YYYY-MM-DD` shape. -/
theorem formatDateChars_shape (z : Nat) (hy : civilY z ≤ 9999) :
    isYYYYMMDDL (formatDateChars z) = true := by
  obtain ⟨hm1, hm2⟩ := civilM_bounds z
  obtain ⟨hd1, hd2⟩ := civilD_bounds z
  have hy1 := civilY_lb z
  unfold formatDateChars
  rw [if_pos hy]
  rw [padTo_four (civilY z) (by omega) (by omega)]
  rcases Nat.lt_or_ge (civilM z) 10 with hm | hm
  · rw [padTo_two_lt (civilM z) hm]
    rcases Nat.lt_or_ge (civilD z) 10 with hd | hd
    · rw [padTo_two_lt (civilD z) hd]
      simp [isYYYYMMDDL, digitOf_digit]
      decide
    · rw [padTo_two_ge (civilD z) hd (by omega)]
      simp [isYYYYMMDDL, digitOf_digit]
      decide
  · rw [padTo_two_ge (civilM z) hm (by omega)]
    rcases Nat.lt_or_ge (civilD z) 10 with hd | hd
    · rw [padTo_two_lt (civilD z) hd]
      simp [isYYYYMMDDL, digitOf_digit]
      decide
    · rw [padTo_two_ge (civilD z) hd (by omega)]
      simp [isYYYYMMDDL, digitOf_digit]

theorem formatISODate_shape (z : Nat) (hy : civilY z ≤ 9999) :
    isYYYYMMDD (formatISODate z) = true := by
  unfold formatISODate isYYYYMMDD
  exact formatDateChars_shape z hy

theorem liftDate_ok (z : Nat) (h : z ≤ MAX_DAYS) :
    liftDate z = Except.ok (some (formatISODate z)) := by
  simp [liftDate, toISODateOpt, h]

theorem liftDate_ok_iff (z : Nat) (s : String) :
    liftDate z = Except.ok (some s) ↔ z ≤ MAX_DAYS ∧ s = formatISODate z := by
  unfold liftDate toISODateOpt
  split_ifs with h <;> simp [h, eq_comm]

theorem nextK_le (num w : Nat) : nextK num w ≤ 6 := by
  unfold nextK
  omega

theorem wday_add_nextK (now num : Nat) (h : num ≤ 6) :
    wday (now + nextK num (wday now)) = num := by
  unfold wday nextK
  omega

theorem nextK_zero_iff (now num : Nat) (h : num ≤ 6) :
    nextK num (wday now) = 0 ↔ wday now = num := by
  unfold wday nextK
  omega

theorem findNextDay_le (cs : List Char) (num : Nat)
    (h : findNextDay cs = some num) : num ≤ 6 := by
  unfold findNextDay at h
  rw [Option.map_eq_some'] at h
  obtain ⟨p, hp, hnum⟩ := h
  have hmem := List.mem_of_find?_eq_some hp
  rw [← hnum]
  simp only [dayMapL, List.mem_cons, List.not_mem_nil, or_false] at hmem
  rcases hmem with h | h | h | h | h | h | h <;> rw [h] <;> omega

theorem scanDateLit_shape : ∀ (cs : List Char) (b : Bool) (m : List Char),
    scanDateLit cs b = some m → isYYYYMMDDL m = true
  | [], _, m, h => by cases h
  | c :: cs, b, m, h => by
    rw [scanDateLit] at h
    rcases hd : (if !b then dateLitAt (c :: cs) else none) with _ | m0
    · rw [hd] at h
      exact scanDateLit_shape cs (wordChar c) m h
    · rw [hd] at h
      injection h with h2
      subst h2
      cases b with
      | true => rw [if_neg (by decide)] at hd; cases hd
      | false =>
        rw [if_pos (by decide)] at hd
        unfold dateLitAt at hd
        split at hd
        · split_ifs at hd with hcond
          · injection hd with hd2
            subst hd2
            simp only [Bool.and_eq_true] at hcond
            simp [isYYYYMMDDL, hcond.1.1, hcond.1.2, hcond.2]
        · cases hd

/-! ## Branch characterisations of `extractDueDate` -/

theorem extractDueDate_nextDay (text : String) (now num : Nat)
    (h : findNextDay (lowerL text.data) = some num) :
    extractDueDate text now = liftDate (now + nextK num (wday now)) := by
  unfold extractDueDate
  rw [h]

theorem extractDueDate_tomorrow (text : String) (now : Nat)
    (h1 : findNextDay (lowerL text.data) = none)
    (h2 : hasSub (lowerL text.data) "tomorrow".data = true) :
    extractDueDate text now = liftDate (now + 1) := by
  unfold extractDueDate
  rw [h1]
  simp only [h2, if_true]

theorem extractDueDate_inDays (text : String) (now n : Nat)
    (h1 : findNextDay (lowerL text.data) = none)
    (h2 : hasSub (lowerL text.data) "tomorrow".data = false)
    (h3 : scanInDays (lowerL text.data) = some n) :
    extractDueDate text now = liftDate (now + n) := by
  unfold extractDueDate
  rw [h1]
  simp only [h2, Bool.false_eq_true, if_false, h3]

theorem extractDueDate_dateLit (text : String) (now : Nat) (m : List Char)
    (h1 : findNextDay (lowerL text.data) = none)
    (h2 : hasSub (lowerL text.data) "tomorrow".data = false)
    (h3 : scanInDays (lowerL text.data) = none)
    (h4 : scanDateLit text.data false = some m) :
    extractDueDate text now = Except.ok (some (String.mk m)) := by
  unfold extractDueDate
  rw [h1]
  simp only [h2, Bool.false_eq_true, if_false, h3, h4]

theorem extractDueDate_noMatch (text : String) (now : Nat)
    (h1 : findNextDay (lowerL text.data) = none)
    (h2 : hasSub (lowerL text.data) "tomorrow".data = false)
    (h3 : scanInDays (lowerL text.data) = none)
    (h4 : scanDateLit text.data false = none) :
    extractDueDate text now = Except.ok none := by
  unfold extractDueDate
  rw [h1]
  simp only [h2, Bool.false_eq_true, if_false, h3, h4]

/-! ## Helper characterisations for the schema and the title parser -/

theorem nullableOk_iff {α : Type} (f : Field α) :
    nullableOk f = true ↔ f ≠ Field.missing := by
  cases f <;> simp [nullableOk]

theorem titleOk_iff (f : Field String) :
    titleOk f = true ↔ ∃ s, f = Field.val s ∧ 1 ≤ s.length := by
  cases f with
  | missing => simp [titleOk]
  | nullV => simp [titleOk]
  | val s =>
    simp only [titleOk, decide_eq_true_eq]
    constructor
    · intro h
      exact ⟨s, rfl, h⟩
    · rintro ⟨s2, hs, h⟩
      injection hs with he
      rw [he]
      exact h

theorem stripIntro_eq : ∀ (ps : List (List Char)) (t : List Char),
    stripIntro ps t =
      match ps.find? (fun p => leadsWith p (lowerL t)) with
      | some p => trimChars (t.drop p.length)
      | none => t
  | [], _ => rfl
  | p :: ps, t => by
    rw [stripIntro]
    cases hp : leadsWith p (lowerL t) with
    | true =>
      rw [if_pos rfl, List.find?_cons_of_pos _ (by simpa using hp)]
    | false =>
      rw [if_neg (by simp), List.find?_cons_of_neg _ (by simpa using hp)]
      exact stripIntro_eq ps t

/-! ## The claims -/

/-- Claim C1, amended: when the text matches `next <weekday>` (first matching
`dayMap` entry `num`) and "now" is in range, `extractDueDate` returns the
date `now + k` with `k = (num - getDay + 7) % 7`: that date falls on the
named weekday and lies 0–6 days ahead — it equals today exactly when today
already is the named weekday (the claim's "1–7 days, same-day lands 7 days
out" is false on the code). -/
theorem claim_C1_amended (text : String) (now num : Nat)
    (hfind : findNextDay (lowerL text.data) = some num)
    (hnow : now + 6 ≤ MAX_DAYS) :
    ∃ k, k ≤ 6 ∧ wday (now + k) = num ∧ (k = 0 ↔ wday now = num) ∧
      extractDueDate text now = Except.ok (some (formatISODate (now + k))) := by
  have hnum : num ≤ 6 := findNextDay_le _ _ hfind
  refine ⟨nextK num (wday now), nextK_le _ _, wday_add_nextK now num hnum,
    nextK_zero_iff now num hnum, ?_⟩
  rw [extractDueDate_nextDay text now num hfind]
  exact liftDate_ok _ (by have := nextK_le num (wday now); omega)

/-- Claim C1, witness: "next friday" on Monday 1970-01-05 (day 4). -/
theorem claim_C1_witness :
    findNextDay (lowerL "next friday".data) = some 5 ∧
    (∃ k, k ≤ 6 ∧ wday (4 + k) = 5 ∧ (k = 0 ↔ wday 4 = 5) ∧
      extractDueDate "next friday" 4 = Except.ok (some (formatISODate (4 + k)))) :=
  ⟨by decide, claim_C1_amended "next friday" 4 5 (by decide) (by decide)⟩

/-- Claim C1, counterexample: on Monday 1970-01-05 (day 4, `getDay` = 1),
`extractDueDate "next monday"` returns that same Monday — 0 days in the
future, not the 7 the claim requires. -/
theorem claim_C1_counterexample :
    extractDueDate "next monday" 4 = Except.ok (some "1970-01-05") ∧
    formatISODate 4 = "1970-01-05" ∧ wday 4 = 1 := by
  refine ⟨?_, ?_, ?_⟩ <;> rfl

/-- Claim C2, amended: the four pattern classes are evaluated in the fixed
priority order (first match wins, `none` when no class matches), but a
matched relative date outside the JS `Date` range throws instead of
returning, and a computed date whose year exceeds 9999 is rendered in the
expanded `+YYYYYY` form rather than `YYYY-MM-DD` (the literal class is
always `YYYY-MM-DD`-shaped). -/
theorem claim_C2_amended (text : String) (now : Nat) :
    (∀ num, findNextDay (lowerL text.data) = some num →
      extractDueDate text now = liftDate (now + nextK num (wday now))) ∧
    (findNextDay (lowerL text.data) = none →
      hasSub (lowerL text.data) "tomorrow".data = true →
      extractDueDate text now = liftDate (now + 1)) ∧
    (findNextDay (lowerL text.data) = none →
      hasSub (lowerL text.data) "tomorrow".data = false →
      ∀ n, scanInDays (lowerL text.data) = some n →
        extractDueDate text now = liftDate (now + n)) ∧
    (findNextDay (lowerL text.data) = none →
      hasSub (lowerL text.data) "tomorrow".data = false →
      scanInDays (lowerL text.data) = none →
      ∀ m, scanDateLit text.data false = some m →
        extractDueDate text now = Except.ok (some (String.mk m))) ∧
    (findNextDay (lowerL text.data) = none →
      hasSub (lowerL text.data) "tomorrow".data = false →
      scanInDays (lowerL text.data) = none →
      scanDateLit text.data false = none →
      extractDueDate text now = Except.ok none) ∧
    (∀ s, extractDueDate text now = Except.ok (some s) →
      isYYYYMMDD s = true ∨
        ∃ d, d ≤ MAX_DAYS ∧ 9999 < civilY d ∧ s = formatISODate d) := by
  refine ⟨fun num h => extractDueDate_nextDay text now num h,
    fun h1 h2 => extractDueDate_tomorrow text now h1 h2,
    fun h1 h2 n h3 => extractDueDate_inDays text now n h1 h2 h3,
    fun h1 h2 h3 m h4 => extractDueDate_dateLit text now m h1 h2 h3 h4,
    fun h1 h2 h3 h4 => extractDueDate_noMatch text now h1 h2 h3 h4, ?_⟩
  intro s hs
  cases hf : findNextDay (lowerL text.data) with
  | some num =>
    rw [extractDueDate_nextDay text now num hf, liftDate_ok_iff] at hs
    obtain ⟨hle, rfl⟩ := hs
    by_cases hy : civilY (now + nextK num (wday now)) ≤ 9999
    · exact Or.inl (formatISODate_shape _ hy)
    · exact Or.inr ⟨_, hle, by omega, rfl⟩
  | none =>
    cases ht : hasSub (lowerL text.data) "tomorrow".data with
    | true =>
      rw [extractDueDate_tomorrow text now hf ht, liftDate_ok_iff] at hs
      obtain ⟨hle, rfl⟩ := hs
      by_cases hy : civilY (now + 1) ≤ 9999
      · exact Or.inl (formatISODate_shape _ hy)
      · exact Or.inr ⟨_, hle, by omega, rfl⟩
    | false =>
      cases hn : scanInDays (lowerL text.data) with
      | some n =>
        rw [extractDueDate_inDays text now n hf ht hn, liftDate_ok_iff] at hs
        obtain ⟨hle, rfl⟩ := hs
        by_cases hy : civilY (now + n) ≤ 9999
        · exact Or.inl (formatISODate_shape _ hy)
        · exact Or.inr ⟨_, hle, by omega, rfl⟩
      | none =>
        cases hm : scanDateLit text.data false with
        | some m =>
          rw [extractDueDate_dateLit text now m hf ht hn hm] at hs
          injection hs with hs2
          injection hs2 with hs3
          subst hs3
          exact Or.inl (scanDateLit_shape text.data false m hm)
        | none =>
          rw [extractDueDate_noMatch text now hf ht hn hm] at hs
          cases hs

/-- Claim C2, witness: text with no date pattern yields `none`. -/
theorem claim_C2_witness : extractDueDate "hello" 0 = Except.ok none :=
  (claim_C2_amended "hello" 0).2.2.2.2.1 (by decide) (by decide) (by decide)
    (by decide)

/-- Claim C2, counterexample: "in 3000000 days" (a matching "in N days"
pattern) yields the year-10183 date `+010183-09-21`, which is not of the
shape `YYYY-MM-DD`. -/
theorem claim_C2_counterexample :
    extractDueDate "in 3000000 days" 0 = Except.ok (some "+010183-09-21") ∧
    isYYYYMMDD "+010183-09-21" = false := by
  refine ⟨?_, ?_⟩ <;> rfl

/-- Claim C3, amended: "tomorrow" yields today + 1 only when no
`next <weekday>` pattern matched first — the weekday class has priority, so
"tomorrow" is not checked independently of it. -/
theorem claim_C3_amended (text : String) (now : Nat)
    (h1 : findNextDay (lowerL text.data) = none)
    (h2 : hasSub (lowerL text.data) "tomorrow".data = true)
    (h3 : now + 1 ≤ MAX_DAYS) :
    extractDueDate text now = Except.ok (some (formatISODate (now + 1))) := by
  rw [extractDueDate_tomorrow text now h1 h2]
  exact liftDate_ok _ h3

/-- Claim C3, witness: "pay rent tomorrow" on day 0 yields 1970-01-02. -/
theorem claim_C3_witness :
    extractDueDate "pay rent tomorrow" 0 = Except.ok (some (formatISODate (0 + 1))) :=
  claim_C3_amended "pay rent tomorrow" 0 (by decide) (by decide) (by decide)

/-- Claim C3, counterexample: "next friday tomorrow" contains "tomorrow",
but on Monday 1970-01-05 (day 4) the result is Friday 1970-01-09, not
tomorrow (1970-01-06): the weekday class wins. -/
theorem claim_C3_counterexample :
    extractDueDate "next friday tomorrow" 4 = Except.ok (some "1970-01-09") ∧
    formatISODate (4 + 1) = "1970-01-06" := by
  refine ⟨?_, ?_⟩ <;> rfl

/-- Claim C4, amended: the schema rejects a missing, null or empty-string
title but accepts a whitespace-only title (no trimming); every other field
accepts null or a value but is rejected when absent — the fields are
nullable, not optional. -/
theorem claim_C4_amended (r : RawTaskInput) :
    validateTaskInput r = true ↔
      ((∃ s, r.title = Field.val s ∧ 1 ≤ s.length) ∧
        r.description ≠ Field.missing ∧ r.dueDate ≠ Field.missing ∧
        r.assignee ≠ Field.missing ∧ r.project ≠ Field.missing ∧
        r.sectionId ≠ Field.missing ∧ r.links ≠ Field.missing ∧
        r.attachments ≠ Field.missing) := by
  unfold validateTaskInput
  simp only [Bool.and_eq_true, nullableOk_iff, titleOk_iff]
  tauto

/-- Claim C4, witness: a record with a present title and all other fields
null validates. -/
theorem claim_C4_witness :
    validateTaskInput
      { title := Field.val "x", description := Field.nullV,
        dueDate := Field.nullV, assignee := Field.nullV,
        project := Field.nullV, sectionId := Field.nullV,
        links := Field.nullV, attachments := Field.nullV } = true :=
  (claim_C4_amended _).2
    ⟨⟨"x", rfl, by decide⟩, by decide, by decide, by decide, by decide,
      by decide, by decide, by decide⟩

/-- Claim C4, counterexample: an absent `description` is rejected (the
claim says absence is accepted), and a whitespace-only title `" "` is
accepted (the claim says titles empty after trimming are rejected). -/
theorem claim_C4_counterexample :
    validateTaskInput
      { title := Field.val "x", description := Field.missing,
        dueDate := Field.nullV, assignee := Field.nullV,
        project := Field.nullV, sectionId := Field.nullV,
        links := Field.nullV, attachments := Field.nullV } = false ∧
    validateTaskInput
      { title := Field.val " ", description := Field.nullV,
        dueDate := Field.nullV, assignee := Field.nullV,
        project := Field.nullV, sectionId := Field.nullV,
        links := Field.nullV, attachments := Field.nullV } = true := by
  refine ⟨?_, ?_⟩ <;> rfl

/-- Claim C5: `extractTaskTitle` trims, strips at most the first matching
intent phrase (case-insensitively, re-trimming the remainder) and
capitalizes the first character; with no match it returns the trimmed text
capitalized — and the two concrete examples from the specification. -/
theorem claim_C5 (text : String) :
    extractTaskTitle text = extractTaskTitleSpec text ∧
    extractTaskTitle "Follow up with shipping by Friday" = "Shipping by Friday" ∧
    extractTaskTitle "Buy milk" = "Buy milk" := by
  refine ⟨?_, by rfl, by rfl⟩
  unfold extractTaskTitle extractTaskTitleSpec
  rw [stripIntro_eq]
  cases List.find? (fun p => leadsWith p (lowerL (trimChars text.data))) introPhrases <;> rfl

/-- Claim C6: `cleanEmailBody` output never contains three consecutive
newlines and is always fully trimmed; on the specification's round-trip
example (a `--`-introduced signature plus a quoted `>` line) neither the
signature text nor the quoted line survives. -/
theorem claim_C6 (body : String) :
    hasSub (cleanEmailBody body).data ('\n' :: '\n' :: '\n' :: []) = false ∧
    trimChars (cleanEmailBody body).data = (cleanEmailBody body).data ∧
    cleanEmailBody
        "Hi team,\n\n\n\nPlease review the doc.\n\n> quoted line\n\nThanks\n-- \nJohn Doe\nCEO" =
      "Hi team,\n\nPlease review the doc.\n\nThanks" ∧
    hasSub (cleanEmailBody
        "Hi team,\n\n\n\nPlease review the doc.\n\n> quoted line\n\nThanks\n-- \nJohn Doe\nCEO").data
      "John Doe".data = false ∧
    hasSub (cleanEmailBody
        "Hi team,\n\n\n\nPlease review the doc.\n\n> quoted line\n\nThanks\n-- \nJohn Doe\nCEO").data
      "quoted line".data = false := by
  refine ⟨?_, ?_, by rfl, by rfl, by rfl⟩
  · have h0 : hasSub
        (collapseGo 0 (joinNl (cutQuoted (cutWroteFirst (splitNl (cutSig body.data))))))
        ('\n' :: '\n' :: '\n' :: []) = false := collapseGo_no3 _ 0
    obtain ⟨a, b, hab⟩ := trimChars_part
      (collapseGo 0 (joinNl (cutQuoted (cutWroteFirst (splitNl (cutSig body.data))))))
    exact hasSub_false_of_part a _ b _ (hab ▸ h0)
  · exact trimChars_idem _

/-- Claim C7, amended: an exception thrown inside the orchestrator body
(for instance by the agent run itself) is caught and converted to a failure
result carrying the error message, and no exception escapes; but an adapter
exception is already caught inside the tool layer, so the orchestrator then
reports `success = false` with the generic "Task processing completed"
message and an empty `error` field — it does not carry the adapter error. -/
theorem claim_C7_amended (env : EnvCfg) (platform : Option Backend)
    (msg : String) (items : List RunItem) :
    handleTextToTask env platform (Except.error msg) =
      { success := false, backend := pickBackend env, taskUrl := none,
        message := "Error processing task: " ++ msg, error := some msg } ∧
    (handleTextToTask env platform (Except.ok items)).error = none := by
  refine ⟨rfl, ?_⟩
  cases hs : scanItems items <;> simp [handleTextToTask, hs]

/-- Claim C7, counterexample: the Asana adapter throws "boom"; the tool
layer catches it, and `handleTextToTask` returns a failure whose `message`
is the generic "Task processing completed" and whose `error` is absent —
neither field carries the thrown message, contrary to the claim. -/
theorem claim_C7_counterexample :
    handleTextToTask ⟨true, true, false, false⟩ none
      (Except.ok [RunItem.toolCallOutput (Except.ok
        (asanaCreateTaskExecute "T" (Except.error "boom")))]) =
      { success := false, backend := Backend.asana, taskUrl := none,
        message := "Task processing completed", error := none } := by
  rfl

/-- Claim C8: after a successful primary creation, failure of the
best-effort secondary call (Asana section move, Planner details PATCH) is
swallowed: both adapters still return the task URL. -/
theorem claim_C8 (cfgA : AsanaConfig) (inA : TaskInputV) (task : AsanaTask)
    (moveOut : FetchOutcome Unit) (cfgP : GraphConfig) (inP : TaskInputV)
    (plan : PlanInfo) (ptask : PlannerTask) (detailsOut : FetchOutcome Unit) :
    createAsanaTask cfgA inA (FetchOutcome.success task) moveOut =
      Except.ok task.permalink_url ∧
    (jsTruthy (if jsTruthy cfgP.bucketId then cfgP.bucketId
               else plan.defaultBucketId) = true →
      createPlannerTask cfgP inP (FetchOutcome.success plan)
        (FetchOutcome.success ptask) detailsOut = Except.ok ptask.webUrl) := by
  constructor
  · cases moveOut <;> simp [createAsanaTask, moveTaskToSection]
  · intro hb
    cases detailsOut <;> simp [createPlannerTask, updateTaskDetails, hb]

/-- Claim C8, witness: concrete failing secondary calls (Asana: HTTP 500 on
the section move; Planner: network exception on the details PATCH) leave
the returned URLs intact. -/
theorem claim_C8_witness :
    createAsanaTask ⟨"t", "p", some "s"⟩ ⟨"T", none, none, none, none⟩
        (FetchOutcome.success ⟨"g", "u"⟩) (FetchOutcome.badStatus 500 "e") =
      Except.ok "u" ∧
    createPlannerTask ⟨"t", "pl", none⟩ ⟨"T", some "d", none, none, none⟩
        (FetchOutcome.success ⟨some "b"⟩) (FetchOutcome.success ⟨"i", "w"⟩)
        (FetchOutcome.netThrow "x") = Except.ok "w" :=
  ⟨(claim_C8 ⟨"t", "p", some "s"⟩ ⟨"T", none, none, none, none⟩ ⟨"g", "u"⟩
      (FetchOutcome.badStatus 500 "e") ⟨"t", "pl", none⟩
      ⟨"T", some "d", none, none, none⟩ ⟨some "b"⟩ ⟨"i", "w"⟩
      (FetchOutcome.netThrow "x")).1,
    (claim_C8 ⟨"t", "p", some "s"⟩ ⟨"T", none, none, none, none⟩ ⟨"g", "u"⟩
      (FetchOutcome.badStatus 500 "e") ⟨"t", "pl", none⟩
      ⟨"T", some "d", none, none, none⟩ ⟨some "b"⟩ ⟨"i", "w"⟩
      (FetchOutcome.netThrow "x")).2 (by decide)⟩

/-- Claim C9, amended: `extractTaskTitle` and `cleanEmailBody` are total,
and `extractDueDate` never throws as long as the matched relative-date
pattern stays inside the representable JS `Date` range; but a matching
"in N days" with a huge N makes the real code throw a `RangeError` from
`toISOString` (modelled by `Except.error`). -/
theorem claim_C9_amended (text : String) (now : Nat)
    (hA : now + 6 ≤ MAX_DAYS)
    (hC : ∀ n, scanInDays (lowerL text.data) = some n → now + n ≤ MAX_DAYS) :
    ∃ r, extractDueDate text now = Except.ok r := by
  cases hf : findNextDay (lowerL text.data) with
  | some num =>
    refine ⟨some (formatISODate (now + nextK num (wday now))), ?_⟩
    rw [extractDueDate_nextDay text now num hf]
    exact liftDate_ok _ (by have := nextK_le num (wday now); omega)
  | none =>
    cases ht : hasSub (lowerL text.data) "tomorrow".data with
    | true =>
      refine ⟨some (formatISODate (now + 1)), ?_⟩
      rw [extractDueDate_tomorrow text now hf ht]
      exact liftDate_ok _ (by omega)
    | false =>
      cases hn : scanInDays (lowerL text.data) with
      | some n =>
        refine ⟨some (formatISODate (now + n)), ?_⟩
        rw [extractDueDate_inDays text now n hf ht hn]
        exact liftDate_ok _ (hC n hn)
      | none =>
        cases hm : scanDateLit text.data false with
        | some m => exact ⟨_, extractDueDate_dateLit text now m hf ht hn hm⟩
        | none => exact ⟨_, extractDueDate_noMatch text now hf ht hn hm⟩

/-- Claim C9, witness: "in 3 days" from day 0 succeeds. -/
theorem claim_C9_witness : ∃ r, extractDueDate "in 3 days" 0 = Except.ok r :=
  claim_C9_amended "in 3 days" 0 (by decide)
    (fun n hn => by
      rw [show scanInDays (lowerL "in 3 days".data) = some 3 from by rfl] at hn
      injection hn with h2
      rw [← h2]
      decide)

/-- Claim C9, counterexample: "in 200000000 days" matches the "in N days"
class and puts the target outside the JS `Date` range — `extractDueDate`
throws (`Except.error`) instead of returning. -/
theorem claim_C9_counterexample :
    extractDueDate "in 200000000 days" 0 = Except.error () := by
  rfl

/-- Claim C10: every record `parseTaskInput` returns fails
`TaskInputSchema` validation, because the schema requires the nullable
fields to be present while `parseTaskInput` omits `assignee`, `project`,
`section`, `links` and `attachments` (and drops `dueDate` when no pattern
matched). -/
theorem claim_C10 (text : String) (now : Nat) (r : RawTaskInput)
    (h : parseTaskInput text now = Except.ok r) :
    validateTaskInput r = false := by
  unfold parseTaskInput at h
  cases hd : extractDueDate text now with
  | error e =>
    rw [hd] at h
    cases h
  | ok dd =>
    rw [hd] at h
    injection h with h2
    subst h2
    cases dd <;> simp [validateTaskInput, nullableOk]

/-- Claim C10, witness: the record parsed from "Buy milk" fails
validation. -/
theorem claim_C10_witness :
    validateTaskInput
      { title := Field.val "Buy milk", description := Field.val "Buy milk",
        dueDate := Field.missing, assignee := Field.missing,
        project := Field.missing, sectionId := Field.missing,
        links := Field.missing, attachments := Field.missing } = false :=
  claim_C10 "Buy milk" 0 _ (by rfl)

end WorkAssistant
